import Mathlib

/-!
Formal model of src/check_proxies.py (layerist/proxy-checker).

The script is a multithreaded proxy validator.  We embed its pure core:

* parse_proxy_line (lines 69-82): Python regex matching, modelled with the
  same greedy backtracking order as the re engine on the concrete pattern;
* check_proxy (lines 102-134): classification of a probe outcome, with the
  network response abstracted as a NetOutcome value;
* the collection loop of validate_proxies_concurrently (lines 147-171),
  modelled as a fold over outcomes in completion order;
* read_proxies (lines 51-66), write_proxies (lines 137-144) and the control
  flow of main (lines 174-216), including the KeyboardInterrupt handler.

Strings are modelled as List Char; machine I/O (file reads and writes, the
network) is passed in explicitly.
-/

/-- Character list of a string literal (notation helper for statements). -/
def chars (s : String) : List Char := s.toList

/-- Python whitespace (str.strip and the regex class backslash-s), ASCII range. -/
def pyIsSpace (c : Char) : Bool :=
  c == ' ' || c == '\t' || c == '\n' || c == '\r' || c == '\x0b' || c == '\x0c'

/-- Python str.strip: drop leading and trailing whitespace. -/
def strip (s : List Char) : List Char :=
  ((s.dropWhile pyIsSpace).reverse.dropWhile pyIsSpace).reverse

/-- Python str.splitlines for line feeds, carriage returns and CRLF pairs:
a trailing terminator does not produce a final empty line. -/
def splitlinesAux : List Char → List Char → List (List Char)
  | [], acc => if acc.isEmpty then [] else [acc.reverse]
  | '\r' :: '\n' :: rest, acc => acc.reverse :: splitlinesAux rest []
  | '\r' :: rest, acc => acc.reverse :: splitlinesAux rest []
  | '\n' :: rest, acc => acc.reverse :: splitlinesAux rest []
  | c :: rest, acc => splitlinesAux rest (c :: acc)

def splitlines (s : List Char) : List (List Char) := splitlinesAux s []

/-- read_proxies (src/check_proxies.py:51-66): strip every line, keep the
non-empty ones, collapse duplicates.  The Python code builds a set and then
shuffles it, so the order of the returned list is arbitrary; we model it as
the deduplicated list, and every property we state about it is invariant
under permutation. -/
def read_proxies (content : List Char) : List (List Char) :=
  (((splitlines content).map strip).filter (fun l => !l.isEmpty)).dedup

/-- The capture groups of the pattern
caret (backslash-S+) colon (backslash-d+) ( colon ([^:]+) colon ([^:]+) )? dollar
used by parse_proxy_line. -/
structure ParsedProxy where
  ip : List Char
  port : List Char
  creds : Option (List Char × List Char)
deriving DecidableEq, Repr

/-- Match of the optional credential tail: a colon, a non-empty colon-free
user, a colon, a non-empty colon-free password, end of input.  Only the
maximal colon-free user can succeed (a shorter greedy candidate is followed
by a non-colon character), so no backtracking is needed here. -/
def matchCreds (rest : List Char) : Option (List Char × List Char) :=
  match rest with
  | c :: t =>
    if c = ':' then
      match t.dropWhile (fun x => x != ':') with
      | c2 :: p =>
        if c2 == ':' && !(t.takeWhile (fun x => x != ':')).isEmpty && !p.isEmpty
            && p.all (fun x => x != ':')
        then some (t.takeWhile (fun x => x != ':'), p) else none
      | [] => none
    else none
  | [] => none

/-- Match of the digits group followed by the optional credential group and
end of input.  The digit run must be maximal: a shorter greedy candidate
leaves a digit as the next character, which is neither a colon nor the end,
so no backtracking is needed for the digits group either. -/
def matchPortTail (rest : List Char) : Option (List Char × Option (List Char × List Char)) :=
  if (rest.takeWhile Char.isDigit).isEmpty then none
  else
    match rest.dropWhile Char.isDigit with
    | [] => some (rest.takeWhile Char.isDigit, none)
    | c :: r2 =>
      match matchCreds (c :: r2) with
      | some up => some (rest.takeWhile Char.isDigit, some up)
      | none => none

/-- Greedy backtracking over the host group: the host is a non-empty prefix
of non-whitespace characters, tried longest first exactly as the re engine
does for a greedy non-whitespace class. -/
def tryHostFrom (s : List Char) : Nat → Option ParsedProxy
  | 0 => none
  | Nat.succ k =>
    match s.drop (k + 1) with
    | c :: rest2 =>
      if c = ':' then
        match matchPortTail rest2 with
        | some pc => some ⟨s.take (k + 1), pc.1, pc.2⟩
        | none => tryHostFrom s k
      else tryHostFrom s k
    | [] => tryHostFrom s k

/-- parse_proxy_line (src/check_proxies.py:69-82): strip the line and match
the anchored regex; None when the regex fails.  The Lean function is total,
mirroring the fact that the Python function never throws (its try/except
returns None). -/
def parse_proxy_line (line : List Char) : Option ParsedProxy :=
  let s := strip line
  tryHostFrom s ((s.takeWhile (fun c => !pyIsSpace c)).length)

/-- The constructed proxy URL (src/check_proxies.py:77-78): credentials are
embedded when both groups matched. -/
def proxy_url (d : ParsedProxy) : List Char :=
  let auth := match d.creds with
    | some (u, p) => u ++ ':' :: p ++ ['@']
    | none => []
  chars "http://" ++ auth ++ d.ip ++ ':' :: d.port

/-- The proxies dict returned by parse_proxy_line, after the https_only
adjustment in check_proxy (line 112-113) that blanks the http entry. -/
structure ProxyDict where
  http : List Char
  https : List Char
deriving DecidableEq, Repr

def effective_proxies (d : ParsedProxy) (https_only : Bool) : ProxyDict :=
  if https_only then ⟨[], proxy_url d⟩ else ⟨proxy_url d, proxy_url d⟩

/-- The network's behaviour for one probe, abstracting session.get at
line 118: an HTTP response with a status code, or one of the exception
classes caught at lines 123-132.  An arbitrary exception carries the name
of its type (Python type(e).__name__). -/
inductive NetOutcome where
  | status (code : Nat)
  | connectTimeout
  | readTimeout
  | proxyError
  | connectionError
  | exc (name : List Char)
deriving DecidableEq, Repr

/-- check_proxy (src/check_proxies.py:102-134): parse, then classify the
network outcome.  resp.ok in requests is status code < 400.  The test URL,
timeout and the network itself are abstracted into the outcome argument. -/
def check_proxy (proxy_line : List Char) (outcome : NetOutcome) (https_only : Bool) :
    Option (List Char) × List Char :=
  match parse_proxy_line proxy_line with
  | none => (none, chars "invalid_format")
  | some _ =>
    match outcome with
    | .status code =>
        if code < 400 then (some proxy_line, chars "ok")
        else (none, chars "http_" ++ (Nat.repr code).toList)
    | .connectTimeout => (none, chars "timeout")
    | .readTimeout => (none, chars "timeout")
    | .proxyError => (none, chars "proxy_error")
    | .connectionError => (none, chars "conn_error")
    | .exc name => (none, name)

/-- The request at line 118 is reached iff parsing succeeded: the early
return at lines 110-111 is the only path that skips the network. -/
def dispatches_network (proxy_line : List Char) : Bool :=
  (parse_proxy_line proxy_line).isSome

/-- Spec-side definition, following the spec's words: the numeric value of
a digit-string port, for the invariant that port lies in 1..65535.  The
source never converts the port to a number, which is what claim C5 is
about. -/
def specPortValue (port : List Char) : Nat :=
  port.foldl (fun a c => a * 10 + (c.toNat - 48)) 0

/-- Python truthiness of the Optional[str] result: None and the empty
string are falsy. -/
def truthy : Option (List Char) → Bool
  | none => false
  | some s => !s.isEmpty

/-- One iteration of the collection loop at lines 161-169: an accepted
line is appended to the results list, otherwise the status string is
tallied in the errors counter (modelled as a multiset of status keys). -/
def collect_step (acc : List (List Char) × Multiset (List Char))
    (o : Option (List Char) × List Char) : List (List Char) × Multiset (List Char) :=
  if truthy o.1 then (acc.1 ++ [o.1.getD []], acc.2) else (acc.1, o.2 ::ₘ acc.2)

/-- validate_proxies_concurrently (src/check_proxies.py:147-171): one
check_proxy call per proxy, outcomes folded in completion order.  The
as_completed iteration order is arbitrary; we fold in submission order and
prove the aggregate order-independent.  The outcome function stands for
the network's behaviour (per line) at the run's URL and timeout. -/
def validate_proxies_concurrently (proxies : List (List Char))
    (outcome : List Char → NetOutcome) (https_only : Bool) :
    List (List Char) × Multiset (List Char) :=
  (proxies.map (fun p => check_proxy p (outcome p) https_only)).foldl collect_step ([], 0)

/-- The string "backslash-n".join(proxies) written by write_proxies. -/
def joinNewline : List (List Char) → List Char
  | [] => []
  | [x] => x
  | x :: y :: ys => x ++ '\n' :: joinNewline (y :: ys)

/-- write_proxies (src/check_proxies.py:137-144): path.write_text truncates,
so the new file content is independent of the previous content. -/
def write_proxies (_previous : List Char) (proxies : List (List Char)) : List Char :=
  joinNewline proxies

/-- The two validation rounds of main (src/check_proxies.py:192-200): the
second round runs only when --also-test-https was given and round one
accepted something; it rebuilds the accepted list from round one's accepted
lines and discards its own error counter, so the reported errors are always
round one's. -/
def main_rounds (proxies : List (List Char)) (f g : List Char → NetOutcome)
    (alsoHttps https_only : Bool) : List (List Char) × Multiset (List Char) :=
  let r1 := validate_proxies_concurrently proxies f https_only
  if alsoHttps = true ∧ r1.1 ≠ [] then
    ((validate_proxies_concurrently r1.1 g true).1, r1.2)
  else r1

/-- Where, if anywhere, a KeyboardInterrupt lands: during the first
validation round after a number of probes completed, during the second
round (which presupposes that round ran), or not at all. -/
inductive InterruptPoint where
  | noInterrupt
  | duringRound1 (completed : Nat)
  | duringRound2 (completed : Nat)
deriving DecidableEq, Repr

/-- The control flow of main (src/check_proxies.py:183-208) around
write_proxies: the list of lines written to the output file, or none when
write_proxies is never called.  With no proxies, main returns at line 187
before any write.  On a KeyboardInterrupt the handler at lines 202-205
writes the local variable valid when it is bound: during round one the
assignment at line 192 has not happened yet, so it writes the empty list;
during round two, valid still holds round one's accepted list. -/
def main_written (input : List Char) (f g : List Char → NetOutcome)
    (alsoHttps https_only : Bool) (intr : InterruptPoint) : Option (List (List Char)) :=
  let proxies := read_proxies input
  if proxies.isEmpty then none
  else match intr with
    | .noInterrupt => some (main_rounds proxies f g alsoHttps https_only).1
    | .duringRound1 _ => some []
    | .duringRound2 _ => some (validate_proxies_concurrently proxies f https_only).1

/-- The accepted lines produced by a list of outcomes, in completion order. -/
def acceptedOf (l : List (Option (List Char) × List Char)) : List (List Char) :=
  l.filterMap (fun o => if truthy o.1 then some (o.1.getD []) else none)

/-- The tallied error statuses produced by a list of outcomes. -/
def errorsOf (l : List (Option (List Char) × List Char)) : Multiset (List Char) :=
  ((l.filter (fun o => !truthy o.1)).map Prod.snd : List (List Char))

theorem collect_foldl (l : List (Option (List Char) × List Char)) :
    ∀ acc, l.foldl collect_step acc = (acc.1 ++ acceptedOf l, acc.2 + errorsOf l) := by
  induction l with
  | nil => intro acc; simp [acceptedOf, errorsOf]
  | cons o t ih =>
    intro acc
    rw [List.foldl_cons, ih]
    by_cases h : truthy o.1 = true
    · simp [collect_step, acceptedOf, errorsOf, List.filterMap_cons, List.filter_cons, h]
    · simp [collect_step, acceptedOf, errorsOf, List.filterMap_cons, List.filter_cons, h]
      rw [← Multiset.cons_coe, Multiset.add_cons]

theorem validate_eq (l : List (List Char)) (f : List Char → NetOutcome) (h : Bool) :
    validate_proxies_concurrently l f h =
      (acceptedOf (l.map (fun p => check_proxy p (f p) h)),
       errorsOf (l.map (fun p => check_proxy p (f p) h))) := by
  unfold validate_proxies_concurrently
  rw [collect_foldl]
  simp

theorem acceptedOf_length_add (l : List (Option (List Char) × List Char)) :
    (acceptedOf l).length + Multiset.card (errorsOf l) = l.length := by
  induction l with
  | nil => simp [acceptedOf, errorsOf]
  | cons o t ih =>
    by_cases h : truthy o.1 = true <;>
      simp [acceptedOf, errorsOf, List.filterMap_cons, List.filter_cons, h] at * <;>
      omega

theorem check_proxy_fst (p : List Char) (o : NetOutcome) (h : Bool) :
    (check_proxy p o h).1 = some p ∨ (check_proxy p o h).1 = none := by
  unfold check_proxy
  cases parse_proxy_line p with
  | none => simp
  | some d =>
    cases o with
    | status code => by_cases hc : code < 400 <;> simp [hc]
    | connectTimeout => simp
    | readTimeout => simp
    | proxyError => simp
    | connectionError => simp
    | exc name => simp

theorem acceptedOf_sublist (f : List Char → NetOutcome) (h : Bool) :
    ∀ l : List (List Char), (acceptedOf (l.map (fun p => check_proxy p (f p) h))).Sublist l := by
  intro l
  unfold acceptedOf
  induction l with
  | nil => simp
  | cons p t ih =>
    rw [List.map_cons, List.filterMap_cons]
    rcases check_proxy_fst p (f p) h with hs | hs
    · by_cases hp : p.isEmpty = true
      · have ht : truthy (check_proxy p (f p) h).1 = false := by rw [hs]; simp [truthy, hp]
        simp only [ht, Bool.false_eq_true, if_false]
        exact List.Sublist.cons p ih
      · have ht : truthy (check_proxy p (f p) h).1 = true := by rw [hs]; simp [truthy, hp]
        have hg : (check_proxy p (f p) h).1.getD [] = p := by rw [hs]; rfl
        simp only [ht, if_true, hg]
        exact List.Sublist.cons₂ p ih
    · have ht : truthy (check_proxy p (f p) h).1 = false := by rw [hs]; simp [truthy]
      simp only [ht, Bool.false_eq_true, if_false]
      exact List.Sublist.cons p ih

theorem validate_accepted_sublist (l : List (List Char)) (f : List Char → NetOutcome)
    (h : Bool) : ((validate_proxies_concurrently l f h).1).Sublist l := by
  rw [validate_eq]
  exact acceptedOf_sublist f h l

theorem matchCreds_some (rest u p : List Char) (h : matchCreds rest = some (u, p)) :
    u ≠ [] ∧ p ≠ [] := by
  unfold matchCreds at h
  split at h
  · split at h
    · split at h
      · split at h
        · rename_i hcond
          injection h with h
          injection h with h1 h2
          subst h1; subst h2
          simp only [Bool.and_eq_true, Bool.not_eq_true'] at hcond
          refine ⟨?_, ?_⟩
          · intro he; rw [he] at hcond; simp at hcond
          · intro he; rw [he] at hcond; simp at hcond
        · exact absurd h (by simp)
      · exact absurd h (by simp)
    · exact absurd h (by simp)
  · exact absurd h (by simp)

theorem matchPortTail_some (rest port : List Char)
    (creds : Option (List Char × List Char))
    (h : matchPortTail rest = some (port, creds)) :
    port ≠ [] ∧ (∀ c ∈ port, c.isDigit = true) ∧
      (∀ u p, creds = some (u, p) → u ≠ [] ∧ p ≠ []) := by
  unfold matchPortTail at h
  have hmem : ∀ c ∈ rest.takeWhile Char.isDigit, c.isDigit = true :=
    fun c hc => List.mem_takeWhile_imp hc
  split at h
  · exact absurd h (by simp)
  · rename_i hne
    have hp : rest.takeWhile Char.isDigit ≠ [] := by
      intro he; rw [he] at hne; simp at hne
    split at h
    · injection h with h
      injection h with h1 h2
      subst h1; subst h2
      exact ⟨hp, hmem, fun u p hup => absurd hup (by simp)⟩
    · split at h
      · rename_i up hmc
        injection h with h
        injection h with h1 h2
        subst h1; subst h2
        refine ⟨hp, hmem, fun u' p' he => ?_⟩
        injection he with he
        obtain ⟨u, p⟩ := up
        injection he with he1 he2
        subst he1; subst he2
        exact matchCreds_some _ _ _ hmc
      · exact absurd h (by simp)

theorem tryHostFrom_some (s : List Char) :
    ∀ (k : Nat) (d : ParsedProxy), tryHostFrom s k = some d →
      d.ip ≠ [] ∧ d.port ≠ [] ∧ (∀ c ∈ d.port, c.isDigit = true) ∧
        (∀ u p, d.creds = some (u, p) → u ≠ [] ∧ p ≠ []) := by
  intro k
  induction k with
  | zero => intro d hd; exact absurd hd (by simp [tryHostFrom])
  | succ k ih =>
    intro d hd
    unfold tryHostFrom at hd
    split at hd
    · rename_i c rest2 hdrop
      split at hd
      · split at hd
        · rename_i pc hpt
          injection hd with hd
          subst hd
          obtain ⟨h1, h2, h3⟩ := matchPortTail_some rest2 pc.1 pc.2 (by rw [hpt])
          refine ⟨?_, h1, h2, h3⟩
          have hlen : k + 1 < s.length := by
            by_contra hcon
            push_neg at hcon
            rw [List.drop_eq_nil_of_le hcon] at hdrop
            exact absurd hdrop.symm (by simp)
          have hl := List.length_take (k + 1) s
          intro he
          have he2 : s.take (k + 1) = [] := he
          rw [he2] at hl
          simp at hl
          omega
        · exact ih d hd
      · exact ih d hd
    · exact ih d hd

/-- Any descriptor the parser yields: non-empty host, non-empty all-digit
port, credentials (when present) both non-empty. -/
theorem parse_proxy_line_some (line : List Char) (d : ParsedProxy)
    (h : parse_proxy_line line = some d) :
    d.ip ≠ [] ∧ d.port ≠ [] ∧ (∀ c ∈ d.port, c.isDigit = true) ∧
      (∀ u p, d.creds = some (u, p) → u ≠ [] ∧ p ≠ []) :=
  tryHostFrom_some _ _ d h

theorem collect_perm (o1 o2 : List (Option (List Char) × List Char)) (hp : o1.Perm o2) :
    ((acceptedOf o1 : List (List Char)) : Multiset (List Char)) = (acceptedOf o2 : List (List Char)) ∧
      errorsOf o1 = errorsOf o2 := by
  constructor
  · exact Multiset.coe_eq_coe.mpr (hp.filterMap _)
  · exact Multiset.coe_eq_coe.mpr (((hp.filter _).map _))

/-- Sanity check of the regex model on a credentialed line and on stripped
whitespace. -/
theorem parse_proxy_line_examples :
    parse_proxy_line (chars "5.6.7.8:3128:user:pass") =
        some ⟨chars "5.6.7.8", chars "3128", some (chars "user", chars "pass")⟩ ∧
      parse_proxy_line (chars "  1.2.3.4:80  ") = some ⟨chars "1.2.3.4", chars "80", none⟩ ∧
      parse_proxy_line (chars "h:1:a:b:c") = none := by decide

/-- C2 counterexample: a connect-phase timeout and a read-phase timeout are
classified identically (both as the status "timeout"), so they are not two
distinct failure kinds as the claim states. -/
theorem C2_counterexample :
    (check_proxy (chars "1.2.3.4:8080") NetOutcome.connectTimeout false).2 =
      (check_proxy (chars "1.2.3.4:8080") NetOutcome.readTimeout false).2 := by decide

/-- C2 amended: for every parsable line, connect-phase and read-phase
timeouts both map to the single status "timeout", while proxy-specific
rejection maps to "proxy_error" and generic connection failure to
"conn_error", which are distinct from each other and from "timeout"; the
tally therefore distinguishes proxy rejection from connection failure but
not where a timeout occurred. -/
theorem C2_failure_kinds_amended (line : List Char) (https_only : Bool)
    (h : parse_proxy_line line ≠ none) :
    (check_proxy line NetOutcome.connectTimeout https_only).2 = chars "timeout" ∧
    (check_proxy line NetOutcome.readTimeout https_only).2 = chars "timeout" ∧
    (check_proxy line NetOutcome.proxyError https_only).2 = chars "proxy_error" ∧
    (check_proxy line NetOutcome.connectionError https_only).2 = chars "conn_error" ∧
    chars "proxy_error" ≠ chars "conn_error" ∧
    chars "proxy_error" ≠ chars "timeout" ∧
    chars "conn_error" ≠ chars "timeout" := by
  cases hp : parse_proxy_line line with
  | none => exact absurd hp h
  | some d =>
    refine ⟨?_, ?_, ?_, ?_, by decide, by decide, by decide⟩ <;> simp [check_proxy, hp]

/-- C2 witness for the amended theorem at a concrete parsable line. -/
theorem C2_failure_kinds_amended_witness :
    parse_proxy_line (chars "1.2.3.4:8080") ≠ none ∧
      (check_proxy (chars "1.2.3.4:8080") NetOutcome.connectTimeout false).2 = chars "timeout" :=
  ⟨by decide, (C2_failure_kinds_amended (chars "1.2.3.4:8080") false (by decide)).1⟩

/-- C3 counterexample: an unrecognized exception is not classified as a
single "Unknown" kind; its status is the exception's type name, and two
different unrecognized exception types yield two different statuses. -/
theorem C3_counterexample :
    (check_proxy (chars "1.2.3.4:80") (NetOutcome.exc (chars "ValueError")) false).2 ≠
        chars "Unknown" ∧
      (check_proxy (chars "1.2.3.4:80") (NetOutcome.exc (chars "ValueError")) false).2 ≠
        (check_proxy (chars "1.2.3.4:80") (NetOutcome.exc (chars "ZeroDivisionError")) false).2 := by
  decide

/-- C3 amended: for every parsable line, an unrecognized failure is
classified under a status equal to the exception's type name (an unbounded
string key rather than a closed Unknown), and it is still tallied, never
dropped: over any run, accepted count plus tallied failures equals the
number of probes. -/
theorem C3_unknown_amended (line name : List Char) (https_only : Bool)
    (h : parse_proxy_line line ≠ none) :
    check_proxy line (NetOutcome.exc name) https_only = (none, name) ∧
    ∀ (lines : List (List Char)) (f : List Char → NetOutcome) (ho : Bool),
      ((validate_proxies_concurrently lines f ho).1).length +
        Multiset.card ((validate_proxies_concurrently lines f ho).2) = lines.length := by
  constructor
  · cases hp : parse_proxy_line line with
    | none => exact absurd hp h
    | some d => simp [check_proxy, hp]
  · intro lines f ho
    rw [validate_eq]
    have := acceptedOf_length_add (lines.map fun p => check_proxy p (f p) ho)
    simpa using this

/-- C3 witness for the amended theorem at a concrete parsable line. -/
theorem C3_unknown_amended_witness :
    parse_proxy_line (chars "1.2.3.4:80") ≠ none ∧
      check_proxy (chars "1.2.3.4:80") (NetOutcome.exc (chars "ValueError")) false =
        (none, chars "ValueError") :=
  ⟨by decide, (C3_unknown_amended (chars "1.2.3.4:80") (chars "ValueError") false (by decide)).1⟩

/-- C4 counterexample: the line a:1:2 has three colon-separated tokens
(neither the two of host:port nor the four of host:port:user:pass), yet the
parser accepts it, binding host a:1 and port 2, and it is dispatched to the
network. -/
theorem C4_counterexample :
    parse_proxy_line (chars "a:1:2") = some ⟨chars "a:1", chars "2", none⟩ ∧
    dispatches_network (chars "a:1:2") = true ∧
    (chars "a:1:2").count ':' = 2 := by decide

/-- C4 amended: every trimmed line the regex rejects (in particular a line
with no colon, or one whose every candidate port position is non-numeric)
yields the invalid_format rejection without throwing and is never
dispatched to the network; but because the host pattern may itself contain
colons, token counts other than two and four are not always rejected. -/
theorem C4_invalid_format_amended (line : List Char) (out : NetOutcome) (https_only : Bool)
    (h : parse_proxy_line line = none) :
    check_proxy line out https_only = (none, chars "invalid_format") ∧
    dispatches_network line = false ∧
    parse_proxy_line (chars "bad-line") = none ∧
    parse_proxy_line (chars "1.2.3.4:abc") = none := by
  refine ⟨?_, ?_, by decide, by decide⟩
  · simp [check_proxy, h]
  · simp [dispatches_network, h]

/-- C4 witness for the amended theorem at a concrete malformed line. -/
theorem C4_invalid_format_amended_witness :
    parse_proxy_line (chars "bad-line") = none ∧
      check_proxy (chars "bad-line") (NetOutcome.status 200) false =
        (none, chars "invalid_format") :=
  ⟨by decide, (C4_invalid_format_amended (chars "bad-line") (NetOutcome.status 200) false
    (by decide)).1⟩

/-- C5 counterexample: the parser performs no port-range check: port 0 and
port 99999 are accepted although they violate the claimed invariant that
the port lies in 1..65535. -/
theorem C5_counterexample :
    parse_proxy_line (chars "1.2.3.4:0") = some ⟨chars "1.2.3.4", chars "0", none⟩ ∧
    parse_proxy_line (chars "1.2.3.4:99999") = some ⟨chars "1.2.3.4", chars "99999", none⟩ ∧
    specPortValue (chars "0") = 0 ∧ specPortValue (chars "99999") = 99999 ∧
    ¬(1 ≤ specPortValue (chars "0")) ∧ ¬(specPortValue (chars "99999") ≤ 65535) := by decide

/-- C5 amended: every descriptor the parser accepts has a non-empty host, a
non-empty all-digit port string, and credentials either both present (and
non-empty) or both absent; the port's numeric range is not checked, so port
0 and port 99999 are accepted rather than rejected. -/
theorem C5_descriptor_invariant_amended (line : List Char) (d : ParsedProxy)
    (h : parse_proxy_line line = some d) :
    d.ip ≠ [] ∧ d.port ≠ [] ∧ (∀ c ∈ d.port, c.isDigit = true) ∧
      (∀ u p, d.creds = some (u, p) → u ≠ [] ∧ p ≠ []) :=
  parse_proxy_line_some line d h

/-- C5 witness for the amended theorem at a concrete credentialed line. -/
theorem C5_descriptor_invariant_amended_witness :
    parse_proxy_line (chars "5.6.7.8:3128:user:pass") =
        some ⟨chars "5.6.7.8", chars "3128", some (chars "user", chars "pass")⟩ ∧
      (⟨chars "5.6.7.8", chars "3128", some (chars "user", chars "pass")⟩ : ParsedProxy).ip ≠ [] :=
  ⟨by decide, (C5_descriptor_invariant_amended (chars "5.6.7.8:3128:user:pass")
    ⟨chars "5.6.7.8", chars "3128", some (chars "user", chars "pass")⟩ (by decide)).1⟩

/-- C1: evaluation of the code at the failing input.  With two proxies and
a network that accepts both, a KeyboardInterrupt after one of the two
probes has completed makes main write an empty accepted set (the local
variable valid is unbound when the interrupt escapes round one, despite
the log message about writing the results so far), although the accepted
subset of the one completed outcome is non-empty. -/
theorem C1_interrupt_discards_completed_outcomes :
    main_written (chars "1.2.3.4:8080\n5.6.7.8:3128") (fun _ => NetOutcome.status 200)
        (fun _ => NetOutcome.status 200) false false (InterruptPoint.duringRound1 1) =
      some [] ∧
    (validate_proxies_concurrently
        ((read_proxies (chars "1.2.3.4:8080\n5.6.7.8:3128")).take 1)
        (fun _ => NetOutcome.status 200) false).1 = [chars "1.2.3.4:8080"] ∧
    ([] : List (List Char)) ≠ [chars "1.2.3.4:8080"] := by decide

/-- C6: the final accepted set (as a multiset) and the failure tally are
functions of the multiset of per-descriptor outcomes only: permuting the
submitted descriptors, or permuting the completion order of the gathered
outcomes, leaves both unchanged. -/
theorem C6_order_independence (f : List Char → NetOutcome) (https_only : Bool)
    (l1 l2 : List (List Char)) (hp : l1.Perm l2) :
    (((validate_proxies_concurrently l1 f https_only).1 : List (List Char)) :
        Multiset (List Char)) =
      (((validate_proxies_concurrently l2 f https_only).1 : List (List Char)) :
        Multiset (List Char)) ∧
    (validate_proxies_concurrently l1 f https_only).2 =
      (validate_proxies_concurrently l2 f https_only).2 ∧
    ∀ (o1 o2 : List (Option (List Char) × List Char)), o1.Perm o2 →
      (((o1.foldl collect_step ([], 0)).1 : List (List Char)) : Multiset (List Char)) =
          (((o2.foldl collect_step ([], 0)).1 : List (List Char)) : Multiset (List Char)) ∧
        (o1.foldl collect_step ([], 0)).2 = (o2.foldl collect_step ([], 0)).2 := by
  have hm := hp.map (fun p => check_proxy p (f p) https_only)
  obtain ⟨ha, he⟩ := collect_perm _ _ hm
  rw [validate_eq, validate_eq]
  refine ⟨ha, he, ?_⟩
  intro o1 o2 ho
  obtain ⟨ha2, he2⟩ := collect_perm _ _ ho
  rw [collect_foldl, collect_foldl]
  simp only [List.nil_append, zero_add]
  exact ⟨ha2, he2⟩

/-- C6 witness at a concrete two-element permutation. -/
theorem C6_order_independence_witness :
    ([chars "a:1", chars "b:2"] : List (List Char)).Perm [chars "b:2", chars "a:1"] ∧
      (((validate_proxies_concurrently [chars "a:1", chars "b:2"]
            (fun _ => NetOutcome.status 200) false).1 : List (List Char)) :
          Multiset (List Char)) =
        (((validate_proxies_concurrently [chars "b:2", chars "a:1"]
            (fun _ => NetOutcome.status 200) false).1 : List (List Char)) :
          Multiset (List Char)) :=
  ⟨by decide, (C6_order_independence (fun _ => NetOutcome.status 200) false
    [chars "a:1", chars "b:2"] [chars "b:2", chars "a:1"] (by decide)).1⟩

/-- C7 counterexample: an input whose lines are all blank yields zero
descriptors, and main then returns at line 187 without ever writing the
output file, contrary to the claim that an empty accepted set is written
even when the input yields zero descriptors. -/
theorem C7_counterexample :
    main_written (chars " \n\n") (fun _ => NetOutcome.status 200)
        (fun _ => NetOutcome.status 200) false false InterruptPoint.noInterrupt = none ∧
      read_proxies (chars " \n\n") = [] := by decide

/-- C7 amended: every normally completed run whose input yields at least
one descriptor writes the accepted set to the output sink, even when that
set is empty, and the output content is independent of the previous file
content (overwritten, not appended); a run whose input yields zero
descriptors exits early without writing. -/
theorem C7_write_amended (input : List Char) (f g : List Char → NetOutcome)
    (alsoHttps https_only : Bool) (h : read_proxies input ≠ []) :
    main_written input f g alsoHttps https_only InterruptPoint.noInterrupt =
      some (main_rounds (read_proxies input) f g alsoHttps https_only).1 ∧
    ∀ (prev1 prev2 : List Char) (v : List (List Char)),
      write_proxies prev1 v = write_proxies prev2 v := by
  constructor
  · have hfalse : (read_proxies input).isEmpty = false := by
      cases hre : read_proxies input with
      | nil => exact absurd hre h
      | cons a t => rfl
    simp [main_written, hfalse]
  · intro prev1 prev2 v
    rfl

/-- C7 witness: a one-descriptor run whose single probe fails still writes,
and writes the empty accepted set. -/
theorem C7_write_amended_witness :
    read_proxies (chars "1.2.3.4:80") ≠ [] ∧
      main_written (chars "1.2.3.4:80") (fun _ => NetOutcome.connectTimeout)
          (fun _ => NetOutcome.connectTimeout) false false InterruptPoint.noInterrupt =
        some (main_rounds (read_proxies (chars "1.2.3.4:80"))
          (fun _ => NetOutcome.connectTimeout) (fun _ => NetOutcome.connectTimeout)
          false false).1 :=
  ⟨by decide, (C7_write_amended (chars "1.2.3.4:80") (fun _ => NetOutcome.connectTimeout)
    (fun _ => NetOutcome.connectTimeout) false false (by decide)).1⟩

/-- C8: when the optional HTTPS round runs (flag set and round one accepted
something), the final accepted list is rebuilt, starting from the empty
accumulator, from exactly round one's accepted lines re-checked against the
HTTPS oracle, and the reported failure tally is round one's tally — round
two failures are discarded.  Every finally accepted line was accepted in
round one. -/
theorem C8_second_round (proxies : List (List Char)) (f g : List Char → NetOutcome)
    (https_only : Bool)
    (h : (validate_proxies_concurrently proxies f https_only).1 ≠ []) :
    main_rounds proxies f g true https_only =
      ((validate_proxies_concurrently
          (validate_proxies_concurrently proxies f https_only).1 g true).1,
        (validate_proxies_concurrently proxies f https_only).2) ∧
    ∀ x ∈ (main_rounds proxies f g true https_only).1,
      x ∈ (validate_proxies_concurrently proxies f https_only).1 := by
  have hmr : main_rounds proxies f g true https_only =
      ((validate_proxies_concurrently
          (validate_proxies_concurrently proxies f https_only).1 g true).1,
        (validate_proxies_concurrently proxies f https_only).2) := by
    unfold main_rounds
    rw [if_pos ⟨rfl, h⟩]
  refine ⟨hmr, ?_⟩
  intro x hx
  rw [hmr] at hx
  exact (validate_accepted_sublist _ g true).subset hx

/-- C8 witness: one proxy accepted in round one and rejected in round two;
the final accepted set is empty while the reported tally is round one's. -/
theorem C8_second_round_witness :
    (validate_proxies_concurrently [chars "1.2.3.4:80"] (fun _ => NetOutcome.status 200)
        false).1 ≠ [] ∧
      main_rounds [chars "1.2.3.4:80"] (fun _ => NetOutcome.status 200)
          (fun _ => NetOutcome.connectTimeout) true false =
        ((validate_proxies_concurrently
            (validate_proxies_concurrently [chars "1.2.3.4:80"]
              (fun _ => NetOutcome.status 200) false).1
            (fun _ => NetOutcome.connectTimeout) true).1,
          (validate_proxies_concurrently [chars "1.2.3.4:80"]
            (fun _ => NetOutcome.status 200) false).2) :=
  ⟨by decide, (C8_second_round [chars "1.2.3.4:80"] (fun _ => NetOutcome.status 200)
    (fun _ => NetOutcome.connectTimeout) false (by decide)).1⟩

/-- C9: strict isolation and totality.  The aggregate over any list of
descriptors decomposes per descriptor, so one descriptor's outcome — of
any kind, including an arbitrary exception — contributes only its own part
and carries no effect onto any other descriptor's contribution; every
probe yields exactly one outcome pair (the run is never aborted by a
probe), and check_proxy's result field is always either the probed line or
none. -/
theorem C9_isolation (f : List Char → NetOutcome) (https_only : Bool) :
    (∀ (pre post : List (List Char)) (x : List Char),
      validate_proxies_concurrently (pre ++ x :: post) f https_only =
        ((validate_proxies_concurrently pre f https_only).1 ++
            (validate_proxies_concurrently [x] f https_only).1 ++
            (validate_proxies_concurrently post f https_only).1,
          (validate_proxies_concurrently pre f https_only).2 +
            (validate_proxies_concurrently [x] f https_only).2 +
            (validate_proxies_concurrently post f https_only).2)) ∧
    (∀ lines : List (List Char),
      ((validate_proxies_concurrently lines f https_only).1).length +
        Multiset.card ((validate_proxies_concurrently lines f https_only).2) =
          lines.length) ∧
    (∀ (p : List Char) (out : NetOutcome),
      (check_proxy p out https_only).1 = some p ∨ (check_proxy p out https_only).1 = none) := by
  refine ⟨?_, ?_, fun p out => check_proxy_fst p out https_only⟩
  · intro pre post x
    rw [validate_eq, validate_eq, validate_eq, validate_eq]
    rw [show pre ++ x :: post = (pre ++ [x]) ++ post by simp]
    rw [List.map_append, List.map_append]
    unfold acceptedOf errorsOf
    rw [List.filterMap_append, List.filterMap_append,
      List.filter_append, List.filter_append, List.map_append, List.map_append]
    refine Prod.ext ?_ ?_
    · simp
    · simp [Multiset.coe_add]
  · intro lines
    rw [validate_eq]
    have := acceptedOf_length_add (lines.map fun p => check_proxy p (f p) https_only)
    simpa using this

/-- C10: read_proxies has set semantics: its result has no duplicates, it
contains exactly the non-empty stripped lines of the input (whitespace-only
lines are dropped before submission, so they are never tallied as
failures), each at most once; and since the accepted output of a run over
it is a sublist of it, a line appears at most once in the accepted output
even when the input contains it twice. -/
theorem C10_read_set_semantics (content : List Char) :
    (read_proxies content).Nodup ∧
    (∀ l, l ∈ read_proxies content ↔
      (l ≠ [] ∧ ∃ raw ∈ splitlines content, strip raw = l)) ∧
    (∀ l, ((read_proxies content : List (List Char)) : Multiset (List Char)).count l ≤ 1) ∧
    (∀ (f : List Char → NetOutcome) (https_only : Bool),
      ((validate_proxies_concurrently (read_proxies content) f https_only).1).Nodup) := by
  have hnd : (read_proxies content).Nodup := List.nodup_dedup _
  refine ⟨hnd, ?_, ?_, ?_⟩
  · intro l
    unfold read_proxies
    rw [List.mem_dedup, List.mem_filter]
    simp only [List.mem_map, Bool.not_eq_true']
    constructor
    · rintro ⟨⟨raw, hraw, hs⟩, hne⟩
      refine ⟨?_, raw, hraw, hs⟩
      intro he
      rw [he] at hne
      simp at hne
    · rintro ⟨hne, raw, hraw, hs⟩
      refine ⟨⟨raw, hraw, hs⟩, ?_⟩
      cases l with
      | nil => exact absurd rfl hne
      | cons a t => rfl
  · intro l
    exact Multiset.nodup_iff_count_le_one.mp (Multiset.coe_nodup.mpr hnd) l
  · intro f https_only
    exact (validate_accepted_sublist _ f https_only).nodup hnd
